import Mathlib

/-!
Verification of the review-cache subsystem of the Gitlab AI code reviewer
(`src/review_cache.py`).

The development shallowly embeds the cache module:

* `GitDiffChange` / `LLMReviewResult` model the record shapes consumed and
  produced by the cache (their declaring module `src/types.py` is not part
  of the sources; the shapes follow the specification, §3, and the field
  names follow their uses in `review_cache.py` and `review_prompt.py`).
* `_build_diff_hash` is the fingerprinter: the canonical per-record segment
  serialization (`serializeChanges`) fed through SHA-256 (`hexdigest`),
  exactly as the Python function builds each segment with
  `"\n".join([...])` and feeds its UTF-8 bytes to `hashlib.sha256`.
* The SQLite table is modelled as an association list `Db` from the
  composite key `(provider, model, diff_hash)` to a stored payload; a
  stored payload is `some j` for a text that parses as the JSON value `j`
  and `none` for a text that `json.loads` rejects.
* Failures of the storage layer (directory creation, `sqlite3.connect`,
  the schema `CREATE TABLE`, the `SELECT`, `json.dumps`, the `INSERT`,
  `commit`) are an explicit oracle `StoreBehavior`; the two public
  operations `get_cached_review_for_changes` / `put_cached_review_for_changes`
  mirror the Python control flow (`try`/`except`/`finally`) over that
  oracle, and additionally report how many connections the call opened
  but never closed, so that the handle discipline can be stated.
-/

set_option maxHeartbeats 1000000

namespace ReviewCache

/-! ## Data model -/

/-- Modelled from the spec: `DiffRecord` (spec §3) — the module
`src/types.py` declaring `GitDiffChange` is absent from the sources.
Field names follow the accesses in `_build_diff_hash`
(`old_path`, `new_path`, `new_file`, `deleted_file`, `renamed_file`,
`diff`); per spec §3 the paths and the diff are strings (possibly empty)
and the three flags are booleans. -/
structure GitDiffChange where
  old_path : String
  new_path : String
  new_file : Bool
  deleted_file : Bool
  renamed_file : Bool
  diff : String
deriving DecidableEq

/-- Modelled from the spec: `ReviewResult` (spec §3) — the module
`src/types.py` declaring `LLMReviewResult` is absent from the sources.
`elapsed_seconds` (a Python float) is modelled as an exact rational:
the cache performs no arithmetic on it, and CPython's `json` round-trips
every float value exactly, which the rational model preserves.  The three
token counters may be absent (`null`). -/
structure LLMReviewResult where
  content : String
  provider : String
  model : String
  elapsed_seconds : Rat
  input_tokens : Option Int
  output_tokens : Option Int
  total_tokens : Option Int
deriving DecidableEq

/-- A JSON value: the result of Python `json.loads` on a parsable text,
and the input of `json.dumps`. -/
inductive Json where
  | null : Json
  | bool : Bool → Json
  | num : Rat → Json
  | str : String → Json
  | arr : List Json → Json
  | obj : List (String × Json) → Json

/-- JSON image of an optional integer counter (`null` when absent). -/
def optIntToJson : Option Int → Json
  | none => Json.null
  | some n => Json.num (n : Rat)

/-- The JSON value `json.dumps` serializes for an `LLMReviewResult`
(a JSON object with the result's fields, spec §3). -/
def reviewToJson (r : LLMReviewResult) : Json :=
  Json.obj
    [("content", Json.str r.content),
     ("provider", Json.str r.provider),
     ("model", Json.str r.model),
     ("elapsed_seconds", Json.num r.elapsed_seconds),
     ("input_tokens", optIntToJson r.input_tokens),
     ("output_tokens", optIntToJson r.output_tokens),
     ("total_tokens", optIntToJson r.total_tokens)]

/-- Partial inverse of `optIntToJson`. -/
def jsonToOptInt : Json → Option (Option Int)
  | Json.null => some none
  | Json.num q => if q.den = 1 then some (some q.num) else none
  | _ => none

/-- Reading an `LLMReviewResult` back from a JSON value; `none` when the
value is not the serialization of any `LLMReviewResult`. -/
def reviewFromJson : Json → Option LLMReviewResult
  | Json.obj
      [("content", Json.str c), ("provider", Json.str p),
       ("model", Json.str m), ("elapsed_seconds", Json.num e),
       ("input_tokens", it), ("output_tokens", ot), ("total_tokens", tt)] =>
    match jsonToOptInt it, jsonToOptInt ot, jsonToOptInt tt with
    | some a, some b2, some c2 =>
      some { content := c, provider := p, model := m, elapsed_seconds := e,
             input_tokens := a, output_tokens := b2, total_tokens := c2 }
    | _, _, _ => none
  | _ => none

/-! ## Fingerprinter: canonical serialization

`_build_diff_hash` builds, for every change, the segment
`old_path:<p>\nnew_path:<q>\nflags:<3 chars>\ndiff:\n<text>\n---`
(the Python `"\n".join` of the six entries of `segment_lines`) and feeds
the segments to one SHA-256 accumulator with no separator between
segments.  Python strings are modelled as their lists of characters. -/

/-- The three-character flags code: `"N" if new_file else "-"`, then
`"D" if deleted_file else "-"`, then `"R" if renamed_file else "-"`,
joined. -/
def flagsChars (c : GitDiffChange) : List Char :=
  [if c.new_file then 'N' else '-',
   if c.deleted_file then 'D' else '-',
   if c.renamed_file then 'R' else '-']

/-- One record's segment, `"\n".join(segment_lines)`:
no newline after the trailing `---`. -/
def segChars (c : GitDiffChange) : List Char :=
  "old_path:".data ++ (c.old_path.data ++ ('\n' ::
    ("new_path:".data ++ (c.new_path.data ++ ('\n' ::
      ("flags:".data ++ (flagsChars c ++ ('\n' ::
        ("diff:".data ++ ('\n' ::
          (c.diff.data ++ ('\n' :: "---".data))))))))))))

/-- The full text fed to the hash accumulator: the segments of the
records, in order, concatenated with no extra marker. -/
def serializeChanges : List GitDiffChange → List Char
  | [] => []
  | c :: rest => segChars c ++ serializeChanges rest

/-- Does `l` begin with `pat`? -/
def startsWith : List Char → List Char → Bool
  | [], _ => true
  | _ :: _, [] => false
  | p :: ps, x :: xs => p == x && startsWith ps xs

/-- Does `pat` occur contiguously inside `l`? -/
def containsSeq (pat : List Char) : List Char → Bool
  | [] => startsWith pat []
  | x :: xs => startsWith pat (x :: xs) || containsSeq pat xs

/-- The characters at a segment boundary: the newline ending the diff
text followed by the `---` terminator line. -/
def nlDashes : List Char := ['\n', '-', '-', '-']

/-- The diff records on which the canonical serialization is
unambiguous: paths free of newlines, and a diff text in which the
segment-terminator pattern `"\n---"` never occurs.  (Outside this set the
serialization genuinely collides; see the counterexample for C1.) -/
def wfChange (c : GitDiffChange) : Prop :=
  '\n' ∉ c.old_path.data ∧ '\n' ∉ c.new_path.data ∧
  containsSeq nlDashes c.diff.data = false

instance (c : GitDiffChange) : Decidable (wfChange c) := by
  unfold wfChange
  infer_instance

/-! ## SHA-256 (`hashlib.sha256(...).hexdigest()`)

A direct FIPS 180-4 implementation on `Nat` with explicit reduction
modulo `2 ^ 32`; only its structure (a 32-byte digest printed as
lowercase hex) is used by the theorems, never a concrete digest value. -/

/-- Truncation to a 32-bit word. -/
def u32 (n : Nat) : Nat := n % 2 ^ 32

/-- Right rotation of a 32-bit word. -/
def rotr (n x : Nat) : Nat := u32 ((x >>> n) ||| (x <<< (32 - n)))

/-- 32-bit complement. -/
def not32 (x : Nat) : Nat := x ^^^ (2 ^ 32 - 1)

def bigSigma0 (x : Nat) : Nat := rotr 2 x ^^^ rotr 13 x ^^^ rotr 22 x

def bigSigma1 (x : Nat) : Nat := rotr 6 x ^^^ rotr 11 x ^^^ rotr 25 x

def smallSigma0 (x : Nat) : Nat := rotr 7 x ^^^ rotr 18 x ^^^ (x >>> 3)

def smallSigma1 (x : Nat) : Nat := rotr 17 x ^^^ rotr 19 x ^^^ (x >>> 10)

/-- The eight 32-bit working variables of SHA-256. -/
structure Sha256State where
  a0 : Nat
  a1 : Nat
  a2 : Nat
  a3 : Nat
  a4 : Nat
  a5 : Nat
  a6 : Nat
  a7 : Nat

/-- FIPS 180-4 initial hash value (the words written in decimal:
6a09e667, bb67ae85, 3c6ef372, a54ff53a, 510e527f, 9b05688c, 1f83d9ab,
5be0cd19 in hex). -/
def sha256Init : Sha256State :=
  ⟨1779033703, 3144134277, 1013904242, 2773480762,
   1359893119, 2600822924, 528734635, 1541459225⟩

/-- FIPS 180-4 round constants, written in decimal (428a2f98, 71374491,
b5c0fbcf, ... c67178f2 in hex). -/
def sha256K : List Nat :=
  [1116352408, 1899447441, 3049323471, 3921009573,
   961987163, 1508970993, 2453635748, 2870763221,
   3624381080, 310598401, 607225278, 1426881987,
   1925078388, 2162078206, 2614888103, 3248222580,
   3835390401, 4022224774, 264347078, 604807628,
   770255983, 1249150122, 1555081692, 1996064986,
   2554220882, 2821834349, 2952996808, 3210313671,
   3336571891, 3584528711, 113926993, 338241895,
   666307205, 773529912, 1294757372, 1396182291,
   1695183700, 1986661051, 2177026350, 2456956037,
   2730485921, 2820302411, 3259730800, 3345764771,
   3516065817, 3600352804, 4094571909, 275423344,
   430227734, 506948616, 659060556, 883997877,
   958139571, 1322822218, 1537002063, 1747873779,
   1955562222, 2024104815, 2227730452, 2361852424,
   2428436474, 2756734187, 3204031479, 3329325298]

/-- Big-endian 64-bit length field of the padding. -/
def lengthBytes (n : Nat) : List Nat :=
  [(n >>> 56) % 256, (n >>> 48) % 256, (n >>> 40) % 256, (n >>> 32) % 256,
   (n >>> 24) % 256, (n >>> 16) % 256, (n >>> 8) % 256, n % 256]

/-- Append `0x80`, zero bytes, and the bit length, reaching a multiple of
64 bytes. -/
def padMessage (msg : List Nat) : List Nat :=
  msg ++ 0x80 ::
    (List.replicate ((64 - (msg.length + 9) % 64) % 64) 0 ++
      lengthBytes (8 * msg.length))

/-- Big-endian word from bytes. -/
def bytesToWord (l : List Nat) : Nat := l.foldl (fun a b => a * 256 + b) 0

/-- The sixteen message-schedule words of one 64-byte block. -/
def wordsOfBlock (blk : List Nat) : List Nat :=
  (List.range 16).map (fun i => bytesToWord ((blk.drop (4 * i)).take 4))

/-- Extend the message schedule by `n` further words. -/
def extendW : Nat → List Nat → List Nat
  | 0, w => w
  | n + 1, w =>
    extendW n
      (w ++ [u32 (smallSigma1 (w.getD (w.length - 2) 0) +
                  w.getD (w.length - 7) 0 +
                  smallSigma0 (w.getD (w.length - 15) 0) +
                  w.getD (w.length - 16) 0)])

/-- One SHA-256 round. -/
def roundStep (st : Sha256State) (kw : Nat × Nat) : Sha256State :=
  let t1 := u32 (st.a7 + bigSigma1 st.a4 +
                 ((st.a4 &&& st.a5) ^^^ (not32 st.a4 &&& st.a6)) +
                 kw.1 + kw.2)
  let t2 := u32 (bigSigma0 st.a0 +
                 ((st.a0 &&& st.a1) ^^^ (st.a0 &&& st.a2) ^^^ (st.a1 &&& st.a2)))
  ⟨u32 (t1 + t2), st.a0, st.a1, st.a2, u32 (st.a3 + t1), st.a4, st.a5, st.a6⟩

/-- Compress one 64-byte block into the running state. -/
def compressBlock (st : Sha256State) (blk : List Nat) : Sha256State :=
  let w := extendW 48 (wordsOfBlock blk)
  let f := (sha256K.zip w).foldl roundStep st
  ⟨u32 (st.a0 + f.a0), u32 (st.a1 + f.a1), u32 (st.a2 + f.a2),
   u32 (st.a3 + f.a3), u32 (st.a4 + f.a4), u32 (st.a5 + f.a5),
   u32 (st.a6 + f.a6), u32 (st.a7 + f.a7)⟩

/-- Cut the padded message into 64-byte blocks. -/
def toBlocks : List Nat → List (List Nat)
  | [] => []
  | x :: xs => ((x :: xs).take 64) :: toBlocks (xs.drop 63)
termination_by l => l.length
decreasing_by
  simp only [List.length_drop, List.length_cons]
  omega

/-- The final state after processing every block. -/
def sha256State (msgBytes : List Nat) : Sha256State :=
  (toBlocks (padMessage msgBytes)).foldl compressBlock sha256Init

/-- The four big-endian bytes of a word. -/
def wordBytes (w : Nat) : List Nat :=
  [(w >>> 24) % 256, (w >>> 16) % 256, (w >>> 8) % 256, w % 256]

/-- The 32 digest bytes. -/
def digestBytes (st : Sha256State) : List Nat :=
  wordBytes st.a0 ++ wordBytes st.a1 ++ wordBytes st.a2 ++ wordBytes st.a3 ++
  wordBytes st.a4 ++ wordBytes st.a5 ++ wordBytes st.a6 ++ wordBytes st.a7

/-- The sixteen lowercase hexadecimal digits. -/
def hexDigitChars : List Char := "0123456789abcdef".data

/-- Hex digit of a nibble. -/
def nibbleChar (n : Nat) : Char := hexDigitChars.getD n '0'

/-- Two hex digits of a byte. -/
def byteHex (b : Nat) : List Char := [nibbleChar ((b / 16) % 16), nibbleChar (b % 16)]

/-- `hashlib.sha256(bytes).hexdigest()`: the digest printed as lowercase
hex. -/
def hexdigest (msgBytes : List Nat) : String :=
  String.mk ((digestBytes (sha256State msgBytes)).flatMap byteHex)

/-- `str.encode("utf-8")` of the serialized text, as byte values. -/
def utf8Bytes (cs : List Char) : List Nat :=
  ((String.mk cs).toUTF8.toList).map (fun b => b.toNat)

/-- `_build_diff_hash` (`src/review_cache.py`, lines 48-80): SHA-256 of
the concatenated canonical segments, as lowercase hex. -/
def _build_diff_hash (changes : List GitDiffChange) : String :=
  hexdigest (utf8Bytes (serializeChanges changes))

/-! ## The store

The SQLite table `review_cache(provider, model, diff_hash, result_json)`
with primary key `(provider, model, diff_hash)`, as an association list.
A stored `result_json` text is modelled by what `json.loads` makes of it:
`some j` for a text denoting the JSON value `j`, `none` for a text that
`json.loads` rejects (a corrupt row). -/

/-- The composite primary key `(provider, model, diff_hash)`. -/
abbrev CacheKey := String × String × String

/-- A stored `result_json` text: `none` when it is not valid JSON. -/
abbrev Payload := Option Json

/-- The table contents. -/
abbrev Db := List (CacheKey × Payload)

/-- `SELECT result_json ... WHERE provider = ? AND model = ? AND diff_hash = ?`
followed by `fetchone()`: the first row with the key, if any. -/
def dbLookup : Db → CacheKey → Option Payload
  | [], _ => none
  | (k', p) :: rest, k => if k' = k then some p else dbLookup rest k

/-- `INSERT ... ON CONFLICT(provider, model, diff_hash) DO UPDATE SET
result_json = excluded.result_json`: replace the row with the key if one
exists, insert a new row otherwise. -/
def dbUpsert : Db → CacheKey → Payload → Db
  | [], k, p => [(k, p)]
  | (k', p') :: rest, k, p =>
    if k' = k then (k, p) :: rest else (k', p') :: dbUpsert rest k p

/-- The keys of the stored rows. -/
def dbKeys (db : Db) : List CacheKey := db.map Prod.fst

/-! ## Failure oracle and the two facade operations -/

/-- Which storage-layer steps of one call raise: `os.makedirs`,
`sqlite3.connect`, the schema `CREATE TABLE` (all three inside
`_get_connection`), the `SELECT`/`fetchone`, `json.dumps(result)`, the
`INSERT`, and `conn.commit()`. -/
structure StoreBehavior where
  makedirsFails : Bool
  connectFails : Bool
  schemaFails : Bool
  queryFails : Bool
  dumpsFails : Bool
  execFails : Bool
  commitFails : Bool
deriving DecidableEq

/-- A storage layer in which nothing fails. -/
def cleanBehavior : StoreBehavior :=
  ⟨false, false, false, false, false, false, false⟩

/-- `_get_connection` raises: before `sqlite3.connect` (directory
creation), at `sqlite3.connect`, or at the schema statement. -/
def connectionFails (b : StoreBehavior) : Bool :=
  b.makedirsFails || b.connectFails || b.schemaFails

/-- The one path on which `_get_connection` raises after `sqlite3.connect`
has already returned a live connection: the schema `CREATE TABLE` raises.
On that path the connection object created inside `_get_connection` is
never closed by the code — in the caller the local name `conn` was never
bound, so the `finally` block's `conn.close()` raises `NameError`, which
the inner `try`/`except` swallows. -/
def connectionLeaks (b : StoreBehavior) : Bool :=
  !b.makedirsFails && !b.connectFails && b.schemaFails

/-- Any failure on the read path. -/
def getFails (b : StoreBehavior) : Bool :=
  connectionFails b || b.queryFails

/-- Any failure on the write path. -/
def putFails (b : StoreBehavior) : Bool :=
  connectionFails b || b.dumpsFails || b.execFails || b.commitFails

/-- What one call of `get_cached_review_for_changes` produces: the value
returned to the caller (the raw `json.loads` result — the code returns it
without validation) and the number of connections the call opened and
never closed. -/
structure GetOutcome where
  result : Option Json
  unclosed : Nat

/-- What one call of `put_cached_review_for_changes` produces: the table
contents after the call (the call returns `None` to the caller — there is
no success/failure value) and the number of connections the call opened
and never closed. -/
structure PutOutcome where
  db : Db
  unclosed : Nat

/-- `get_cached_review_for_changes` (`src/review_cache.py`, lines 83-114).
The hash is computed outside the `try`; the `try` body connects, runs the
`SELECT`, returns `None` on no row, otherwise `json.loads` the payload
and returns it as-is; `except Exception` turns any raise into `None`;
the `finally` close is accounted in `unclosed`. -/
def get_cached_review_for_changes (b : StoreBehavior) (db : Db)
    (provider model : String) (changes : List GitDiffChange) : GetOutcome :=
  let diff_hash := _build_diff_hash changes
  let body : Except Unit (Option Json) :=
    if connectionFails b then Except.error ()
    else if b.queryFails then Except.error ()
    else
      match dbLookup db (provider, model, diff_hash) with
      | none => Except.ok none
      | some none => Except.error ()
      | some (some j) => Except.ok (some j)
  { result := match body with
      | Except.ok v => v
      | Except.error _ => none,
    unclosed := if connectionLeaks b then 1 else 0 }

/-- `put_cached_review_for_changes` (`src/review_cache.py`, lines
117-150).  The hash is computed outside the `try`; the `try` body
connects, serializes the result with `json.dumps`, runs the upsert
`INSERT`, and commits; `except Exception` swallows any raise, leaving the
table as it was (an uncommitted transaction is rolled back when the
connection goes away); the `finally` close is accounted in `unclosed`. -/
def put_cached_review_for_changes (b : StoreBehavior) (db : Db)
    (provider model : String) (changes : List GitDiffChange)
    (result : LLMReviewResult) : PutOutcome :=
  let diff_hash := _build_diff_hash changes
  let body : Except Unit Db :=
    if connectionFails b then Except.error ()
    else if b.dumpsFails then Except.error ()
    else if b.execFails then Except.error ()
    else if b.commitFails then Except.error ()
    else Except.ok (dbUpsert db (provider, model, diff_hash) (some (reviewToJson result)))
  { db := match body with
      | Except.ok d => d
      | Except.error _ => db,
    unclosed := if connectionLeaks b then 1 else 0 }

/-! ## Concrete inputs used by counterexamples and witnesses -/

/-- A well-formed one-line change (`{old_path:"a.py", new_path:"a.py",
diff:"+x"}`, the scenario of spec §8). -/
def sampleChange : GitDiffChange :=
  { old_path := "a.py", new_path := "a.py", new_file := false,
    deleted_file := false, renamed_file := false, diff := "+x" }

/-- A single record whose diff text embeds, verbatim, the boundary and a
complete following segment. -/
def embedChange : GitDiffChange :=
  { old_path := "a.py", new_path := "a.py", new_file := false,
    deleted_file := false, renamed_file := false,
    diff := "+x\n---old_path:b.py\nnew_path:b.py\nflags:---\ndiff:\n+y" }

/-- The second record of the colliding two-record diff set. -/
def otherChange : GitDiffChange :=
  { old_path := "b.py", new_path := "b.py", new_file := false,
    deleted_file := false, renamed_file := false, diff := "+y" }

/-- One-record diff set that collides with `collideSetB`. -/
def collideSetA : List GitDiffChange := [embedChange]

/-- Two-record diff set that collides with `collideSetA`. -/
def collideSetB : List GitDiffChange := [sampleChange, otherChange]

/-- A sample review result. -/
def sampleResult : LLMReviewResult :=
  { content := "LGTM", provider := "openai", model := "gpt-4",
    elapsed_seconds := 1.5, input_tokens := some 10,
    output_tokens := some 20, total_tokens := some 30 }

/-- A second, different review result. -/
def otherResult : LLMReviewResult :=
  { content := "needs work", provider := "openai", model := "gpt-4",
    elapsed_seconds := 2, input_tokens := none,
    output_tokens := none, total_tokens := none }

/-- A storage layer whose `SELECT` raises. -/
def queryFailBehavior : StoreBehavior :=
  ⟨false, false, false, true, false, false, false⟩

/-- A storage layer in which serializing the result raises. -/
def dumpsFailBehavior : StoreBehavior :=
  ⟨false, false, false, false, true, false, false⟩

/-- A storage layer in which `sqlite3.connect` succeeds but the schema
`CREATE TABLE` statement raises (for example, the configured path names
an existing file that is not an SQLite database). -/
def schemaFailBehavior : StoreBehavior :=
  ⟨false, false, true, false, false, false, false⟩

/-- A table holding, under the key the facade computes for
`[sampleChange]`, a text that is valid JSON but not a serialized
review result (the JSON number `42`). -/
def wrongShapeDb : Db :=
  [(("openai", "gpt-4", _build_diff_hash [sampleChange]), some (Json.num 42))]

/-- A table holding, under the key the facade computes for
`[sampleChange]`, a corrupted text that `json.loads` rejects. -/
def corruptDb : Db :=
  [(("openai", "gpt-4", _build_diff_hash [sampleChange]), none)]

/-! ## Serialization lemmas -/

theorem jsonToOptInt_optIntToJson (o : Option Int) :
    jsonToOptInt (optIntToJson o) = some o := by
  cases o with
  | none => rfl
  | some n =>
    simp [optIntToJson, jsonToOptInt, Rat.den_intCast, Rat.num_intCast]

theorem reviewFromJson_reviewToJson (r : LLMReviewResult) :
    reviewFromJson (reviewToJson r) = some r := by
  cases r
  simp [reviewToJson, reviewFromJson, jsonToOptInt_optIntToJson]

theorem reviewToJson_injective (r1 r2 : LLMReviewResult)
    (h : reviewToJson r1 = reviewToJson r2) : r1 = r2 := by
  have h1 := reviewFromJson_reviewToJson r1
  rw [h, reviewFromJson_reviewToJson r2] at h1
  exact (Option.some.injEq .. ▸ h1 : r2 = r1).symm

/-! ## Injectivity of the canonical serialization on well-formed sets -/

theorem string_data_inj {s t : String} (h : s.data = t.data) : s = t :=
  String.ext h

theorem gitDiffChange_ext (c1 c2 : GitDiffChange)
    (h1 : c1.old_path = c2.old_path) (h2 : c1.new_path = c2.new_path)
    (h3 : c1.new_file = c2.new_file) (h4 : c1.deleted_file = c2.deleted_file)
    (h5 : c1.renamed_file = c2.renamed_file) (h6 : c1.diff = c2.diff) :
    c1 = c2 := by
  cases c1
  cases c2
  simp_all

/-- Splitting at the first newline: a newline-free part followed by a
newline determines both sides. -/
theorem noNewline_split : ∀ (a1 a2 s1 s2 : List Char),
    '\n' ∉ a1 → '\n' ∉ a2 →
    a1 ++ '\n' :: s1 = a2 ++ '\n' :: s2 → a1 = a2 ∧ s1 = s2 := by
  intro a1
  induction a1 with
  | nil =>
    intro a2 s1 s2 _ h2 h
    cases a2 with
    | nil => simpa using h
    | cons c a2' =>
      simp only [List.nil_append, List.cons_append, List.cons.injEq] at h
      obtain ⟨hc, -⟩ := h
      subst hc
      exact absurd (List.mem_cons_self _ _) h2
  | cons c a1' ih =>
    intro a2 s1 s2 h1 h2 h
    cases a2 with
    | nil =>
      simp only [List.cons_append, List.nil_append, List.cons.injEq] at h
      obtain ⟨hc, -⟩ := h
      subst hc
      exact absurd (List.mem_cons_self _ _) h1
    | cons c' a2' =>
      simp only [List.cons_append, List.cons.injEq] at h
      obtain ⟨hc, ht⟩ := h
      have h1' : '\n' ∉ a1' := fun hm => h1 (List.mem_cons_of_mem _ hm)
      have h2' : '\n' ∉ a2' := fun hm => h2 (List.mem_cons_of_mem _ hm)
      obtain ⟨he, hs⟩ := ih a2' s1 s2 h1' h2' ht
      exact ⟨by rw [hc, he], hs⟩

theorem containsSeq_cons_false {p : List Char} {c : Char} {l : List Char}
    (h : containsSeq p (c :: l) = false) : containsSeq p l = false := by
  simp only [containsSeq, Bool.or_eq_false_iff] at h
  exact h.2

/-- If the boundary pattern `"\n---"` heads `d ++ "\n---" ++ r2` while the
pattern never occurs in `d`, then `d` is empty. -/
theorem marker_prefix_case : ∀ (d r1 r2 : List Char),
    containsSeq nlDashes d = false →
    '\n' :: '-' :: '-' :: '-' :: r1 = d ++ '\n' :: '-' :: '-' :: '-' :: r2 →
    d = [] ∧ r1 = r2 := by
  intro d r1 r2 hd h
  rcases d with _ | ⟨x1, _ | ⟨x2, _ | ⟨x3, _ | ⟨x4, d4⟩⟩⟩⟩
  · simpa using h
  · simp only [List.cons_append, List.nil_append, List.cons.injEq] at h
    exact absurd h.2.1 (by decide)
  · simp only [List.cons_append, List.nil_append, List.cons.injEq] at h
    exact absurd h.2.2.1 (by decide)
  · simp only [List.cons_append, List.nil_append, List.cons.injEq] at h
    exact absurd h.2.2.2.1 (by decide)
  · simp only [List.cons_append, List.cons.injEq] at h
    obtain ⟨h1, h2, h3, h4, -⟩ := h
    have hpre : containsSeq nlDashes (x1 :: x2 :: x3 :: x4 :: d4) = true := by
      simp [containsSeq, startsWith, nlDashes, ← h1, ← h2, ← h3, ← h4]
    rw [hpre] at hd
    exact absurd hd (by decide)

/-- The diff text followed by its `"\n---"` terminator determines the
text, provided the terminator pattern never occurs inside the text. -/
theorem diff_split : ∀ (d1 d2 r1 r2 : List Char),
    containsSeq nlDashes d1 = false → containsSeq nlDashes d2 = false →
    d1 ++ '\n' :: '-' :: '-' :: '-' :: r1 =
      d2 ++ '\n' :: '-' :: '-' :: '-' :: r2 →
    d1 = d2 ∧ r1 = r2 := by
  intro d1
  induction d1 with
  | nil =>
    intro d2 r1 r2 _ h2 h
    simp only [List.nil_append] at h
    obtain ⟨hd, hr⟩ := marker_prefix_case d2 r1 r2 h2 h
    exact ⟨hd.symm, hr⟩
  | cons c d1' ih =>
    intro d2 r1 r2 h1 h2 h
    cases d2 with
    | nil =>
      simp only [List.nil_append] at h
      obtain ⟨hd, -⟩ := marker_prefix_case (c :: d1') r2 r1 h1 h.symm
      exact absurd hd (by simp)
    | cons c' d2' =>
      simp only [List.cons_append, List.cons.injEq] at h
      obtain ⟨hc, ht⟩ := h
      obtain ⟨he, hr⟩ :=
        ih d2' r1 r2 (containsSeq_cons_false h1) (containsSeq_cons_false h2) ht
      exact ⟨by rw [hc, he], hr⟩

theorem flagsChars_no_newline (c : GitDiffChange) : '\n' ∉ flagsChars c := by
  unfold flagsChars
  cases c.new_file <;> cases c.deleted_file <;> cases c.renamed_file <;> decide

theorem ite_char_eq_iff (b b' : Bool) (x y : Char) (hxy : x ≠ y)
    (h : (if b then x else y) = (if b' then x else y)) : b = b' := by
  cases b <;> cases b' <;> simp_all

/-- The segment of a record, with a continuation appended, in fully
right-nested form. -/
theorem segChars_append (c : GitDiffChange) (t : List Char) :
    segChars c ++ t =
      "old_path:".data ++ (c.old_path.data ++ ('\n' ::
        ("new_path:".data ++ (c.new_path.data ++ ('\n' ::
          ("flags:".data ++ (flagsChars c ++ ('\n' ::
            ("diff:".data ++ ('\n' ::
              (c.diff.data ++ ('\n' :: '-' :: '-' :: '-' :: t)))))))))))) := by
  simp only [segChars, List.append_assoc, List.cons_append]
  rfl

/-- A segment with a continuation determines the record and the
continuation, for well-formed records. -/
theorem segChars_split (c1 c2 : GitDiffChange) (t1 t2 : List Char)
    (w1 : wfChange c1) (w2 : wfChange c2)
    (h : segChars c1 ++ t1 = segChars c2 ++ t2) : c1 = c2 ∧ t1 = t2 := by
  rw [segChars_append, segChars_append] at h
  have h := List.append_cancel_left h
  obtain ⟨hold, h⟩ := noNewline_split _ _ _ _ w1.1 w2.1 h
  have h := List.append_cancel_left h
  obtain ⟨hnew, h⟩ := noNewline_split _ _ _ _ w1.2.1 w2.2.1 h
  have h := List.append_cancel_left h
  obtain ⟨hflags, h⟩ := noNewline_split _ _ _ _
    (flagsChars_no_newline c1) (flagsChars_no_newline c2) h
  have h := List.append_cancel_left h
  simp only [List.cons.injEq, true_and] at h
  obtain ⟨hdiff, ht⟩ := diff_split _ _ _ _ w1.2.2 w2.2.2 h
  simp only [flagsChars, List.cons.injEq, and_true] at hflags
  obtain ⟨hnewf, hdelf, hrenf⟩ := hflags
  refine ⟨gitDiffChange_ext c1 c2 (string_data_inj hold) (string_data_inj hnew)
    ?_ ?_ ?_ (string_data_inj hdiff), ht⟩
  · exact ite_char_eq_iff _ _ _ _ (by decide) hnewf
  · exact ite_char_eq_iff _ _ _ _ (by decide) hdelf
  · exact ite_char_eq_iff _ _ _ _ (by decide) hrenf

theorem segChars_ne_nil (c : GitDiffChange) : segChars c ≠ [] := by
  unfold segChars
  exact List.append_ne_nil_of_left_ne_nil (by decide) _

/-- The canonical serialization is injective on well-formed diff sets. -/
theorem serializeChanges_injective : ∀ (d1 d2 : List GitDiffChange),
    (∀ c ∈ d1, wfChange c) → (∀ c ∈ d2, wfChange c) →
    serializeChanges d1 = serializeChanges d2 → d1 = d2 := by
  intro d1
  induction d1 with
  | nil =>
    intro d2 _ _ h
    cases d2 with
    | nil => rfl
    | cons c t =>
      rw [serializeChanges, serializeChanges] at h
      exact absurd (List.append_eq_nil.mp h.symm).1 (segChars_ne_nil c)
  | cons c1 t1 ih =>
    intro d2 hw1 hw2 h
    cases d2 with
    | nil =>
      rw [serializeChanges, serializeChanges] at h
      exact absurd (List.append_eq_nil.mp h).1 (segChars_ne_nil c1)
    | cons c2 t2 =>
      rw [serializeChanges, serializeChanges] at h
      obtain ⟨hc, ht⟩ := segChars_split c1 c2 _ _
        (hw1 c1 (List.mem_cons_self _ _)) (hw2 c2 (List.mem_cons_self _ _)) h
      rw [hc, ih t2 (fun c hc' => hw1 c (List.mem_cons_of_mem _ hc'))
        (fun c hc' => hw2 c (List.mem_cons_of_mem _ hc')) ht]

/-! ## Store lemmas -/

theorem dbLookup_upsert_self (db : Db) (k : CacheKey) (p : Payload) :
    dbLookup (dbUpsert db k p) k = some p := by
  induction db with
  | nil => simp [dbUpsert, dbLookup]
  | cons row rest ih =>
    obtain ⟨k', p'⟩ := row
    by_cases hk : k' = k
    · simp [dbUpsert, hk, dbLookup]
    · simp [dbUpsert, hk, dbLookup, ih]

theorem dbLookup_single (k : CacheKey) (p : Payload) :
    dbLookup [(k, p)] k = some p := by
  simp [dbLookup]

theorem dbLookup_upsert_ne (db : Db) (k k' : CacheKey) (p : Payload)
    (h : k' ≠ k) : dbLookup (dbUpsert db k p) k' = dbLookup db k' := by
  have hne : k ≠ k' := Ne.symm h
  induction db with
  | nil => simp [dbUpsert, dbLookup, hne]
  | cons row rest ih =>
    obtain ⟨k'', p''⟩ := row
    by_cases hk : k'' = k
    · subst hk
      simp [dbUpsert, dbLookup, hne]
    · simp [dbUpsert, hk, dbLookup, ih]

theorem dbUpsert_filter_ne (db : Db) (k : CacheKey) (p : Payload) :
    (dbUpsert db k p).filter (fun row => ! decide (row.1 = k)) =
      db.filter (fun row => ! decide (row.1 = k)) := by
  induction db with
  | nil => simp [dbUpsert]
  | cons row rest ih =>
    obtain ⟨k', p'⟩ := row
    by_cases hk : k' = k
    · subst hk
      simp [dbUpsert]
    · simp [dbUpsert, hk, ih]

theorem mem_dbKeys_upsert (db : Db) (k k'' : CacheKey) (p : Payload) :
    k'' ∈ dbKeys (dbUpsert db k p) ↔ k'' ∈ dbKeys db ∨ k'' = k := by
  induction db with
  | nil => simp [dbUpsert, dbKeys]
  | cons row rest ih =>
    obtain ⟨k', p'⟩ := row
    by_cases hk : k' = k
    · subst hk
      simp [dbUpsert, dbKeys]
      tauto
    · simp [dbUpsert, hk, dbKeys] at ih ⊢
      tauto

theorem dbKeys_upsert_nodup (db : Db) (k : CacheKey) (p : Payload)
    (h : (dbKeys db).Nodup) : (dbKeys (dbUpsert db k p)).Nodup := by
  induction db with
  | nil => simp [dbUpsert, dbKeys]
  | cons row rest ih =>
    obtain ⟨k', p'⟩ := row
    simp only [dbKeys, List.map_cons, List.nodup_cons] at h
    by_cases hk : k' = k
    · subst hk
      simpa [dbUpsert, dbKeys, List.nodup_cons] using h
    · simp only [dbUpsert, if_neg hk, dbKeys, List.map_cons, List.nodup_cons]
      refine ⟨fun hmem => ?_, ih h.2⟩
      rcases (mem_dbKeys_upsert rest k k' p).mp hmem with hm | hm
      · exact h.1 hm
      · exact hk hm

/-! ## Digest format lemmas -/

theorem digestBytes_length (st : Sha256State) : (digestBytes st).length = 32 := by
  simp [digestBytes, wordBytes]

theorem byteHex_length (b : Nat) : (byteHex b).length = 2 := rfl

theorem flatMap_byteHex_length (l : List Nat) :
    (l.flatMap byteHex).length = 2 * l.length := by
  induction l with
  | nil => rfl
  | cons b t ih =>
    simp only [List.flatMap_cons, List.length_append, ih, byteHex_length,
      List.length_cons]
    omega

theorem nibbleChar_mem (n : Nat) : nibbleChar n ∈ hexDigitChars := by
  unfold nibbleChar
  rcases Nat.lt_or_ge n hexDigitChars.length with h | h
  · rw [List.getD_eq_getElem hexDigitChars '0' h]
    exact List.getElem_mem h
  · rw [List.getD_eq_default hexDigitChars '0' h]
    decide

theorem hexdigest_length (m : List Nat) : (hexdigest m).length = 64 := by
  show ((digestBytes (sha256State m)).flatMap byteHex).length = 64
  rw [flatMap_byteHex_length, digestBytes_length]

theorem hexdigest_chars (m : List Nat) (c : Char)
    (hc : c ∈ (hexdigest m).data) : c ∈ hexDigitChars := by
  have hc' : c ∈ (digestBytes (sha256State m)).flatMap byteHex := hc
  rcases List.mem_flatMap.mp hc' with ⟨b, _, hb⟩
  simp only [byteHex, List.mem_cons, List.not_mem_nil, or_false] at hb
  rcases hb with h | h
  · exact h ▸ nibbleChar_mem _
  · exact h ▸ nibbleChar_mem _

/-! ## The claims -/

/-- C1 counterexample: the claim is false as stated.  The one-record diff
set `collideSetA`, whose diff text embeds a segment boundary and a full
second segment, and the two-record diff set `collideSetB` differ in the
diff text and in record count, yet their canonical serializations are the
same list of characters — so their fingerprints coincide with certainty,
not merely up to a hash collision, and the serialization is not injective
on diff sets. -/
theorem c1_counterexample :
    serializeChanges collideSetA = serializeChanges collideSetB ∧
    collideSetA ≠ collideSetB ∧
    collideSetA.length ≠ collideSetB.length ∧
    _build_diff_hash collideSetA = _build_diff_hash collideSetB := by
  have hser : serializeChanges collideSetA = serializeChanges collideSetB := by
    decide
  refine ⟨hser, by decide, by decide, ?_⟩
  unfold _build_diff_hash
  rw [hser]

/-- C1 (amended): the canonical serialization fed to the hash accumulator
is injective on diff sets whose records have newline-free `old_path` and
`new_path` and whose diff texts never contain the segment-boundary
pattern `"\n---"`; on such sets, any difference in a path, a flag, a diff
text, record count or record order changes the serialization.  (Without
that restriction the serialization collides, see `c1_counterexample`.) -/
theorem c1_amended_injective_on_wf (d1 d2 : List GitDiffChange)
    (h1 : ∀ c ∈ d1, wfChange c) (h2 : ∀ c ∈ d2, wfChange c)
    (h : serializeChanges d1 = serializeChanges d2) : d1 = d2 :=
  serializeChanges_injective d1 d2 h1 h2 h

theorem c1_amended_witness : collideSetB = collideSetB :=
  c1_amended_injective_on_wf collideSetB collideSetB (by decide) (by decide) rfl

/-- C2: `get_cached_review_for_changes` never raises — it is a total
function into `Option` by construction, every raise of the `try` body
being mapped to `None` by the `except` — and for every storage behaviour
it returns `None` whenever any step fails (directory creation, connect,
schema creation, query) and likewise on a corrupt row, while on a clean
hit it returns the cached serialized review. -/
theorem c2_get_absorbs_failures (b : StoreBehavior) (db : Db)
    (provider model : String) (changes : List GitDiffChange) :
    (getFails b = true →
      (get_cached_review_for_changes b db provider model changes).result = none) ∧
    (getFails b = false →
      (∀ r : LLMReviewResult,
        dbLookup db (provider, model, _build_diff_hash changes) =
          some (some (reviewToJson r)) →
        (get_cached_review_for_changes b db provider model changes).result =
          some (reviewToJson r)) ∧
      (dbLookup db (provider, model, _build_diff_hash changes) = some none →
        (get_cached_review_for_changes b db provider model changes).result =
          none) ∧
      (dbLookup db (provider, model, _build_diff_hash changes) = none →
        (get_cached_review_for_changes b db provider model changes).result =
          none)) := by
  constructor
  · intro hf
    unfold get_cached_review_for_changes
    simp only [getFails, Bool.or_eq_true] at hf
    rcases hf with hf | hf
    · simp [hf]
    · cases hcon : connectionFails b <;> simp [hcon, hf]
  · intro hf
    simp only [getFails, Bool.or_eq_false_iff] at hf
    obtain ⟨hcon, hq⟩ := hf
    refine ⟨fun r hr => ?_, fun hr => ?_, fun hr => ?_⟩ <;>
      · unfold get_cached_review_for_changes
        simp [hcon, hq, hr]

theorem c2_witness :
    (get_cached_review_for_changes queryFailBehavior [] "openai" "gpt-4"
      [sampleChange]).result = none :=
  (c2_get_absorbs_failures queryFailBehavior [] "openai" "gpt-4"
    [sampleChange]).1 rfl

/-- C3: when no storage step fails, a `put` followed by a `get` for the
same provider, model and diff set returns exactly the serialization of
the stored review result, and the review result is recovered from that
serialization unchanged — the payload round-trips through `json.dumps`
and `json.loads`. -/
theorem c3_round_trip (b : StoreBehavior) (db : Db) (provider model : String)
    (changes : List GitDiffChange) (r : LLMReviewResult)
    (hput : putFails b = false) (hget : getFails b = false) :
    (get_cached_review_for_changes b
      (put_cached_review_for_changes b db provider model changes r).db
      provider model changes).result = some (reviewToJson r) ∧
    reviewFromJson (reviewToJson r) = some r := by
  refine ⟨?_, reviewFromJson_reviewToJson r⟩
  simp only [putFails, getFails, Bool.or_eq_false_iff] at hput hget
  obtain ⟨⟨⟨hcon, hdm⟩, hex⟩, hcm⟩ := hput
  obtain ⟨-, hq⟩ := hget
  unfold put_cached_review_for_changes get_cached_review_for_changes
  simp [hcon, hdm, hex, hcm, hq, dbLookup_upsert_self]

theorem c3_witness :
    (get_cached_review_for_changes cleanBehavior
      (put_cached_review_for_changes cleanBehavior [] "openai" "gpt-4"
        [sampleChange] sampleResult).db
      "openai" "gpt-4" [sampleChange]).result =
        some (reviewToJson sampleResult) ∧
    reviewFromJson (reviewToJson sampleResult) = some sampleResult :=
  c3_round_trip cleanBehavior [] "openai" "gpt-4" [sampleChange] sampleResult
    rfl rfl

/-- C4: `_build_diff_hash` is a pure function of the records' paths,
flags and diff texts — the embedding gives it no access to time,
randomness or the environment — so two structurally identical diff sets,
equal field by field, always receive the identical fingerprint. -/
theorem c4_deterministic (d1 d2 : List GitDiffChange)
    (hlen : d1.length = d2.length)
    (hfields : ∀ (i : Nat) (hi1 : i < d1.length) (hi2 : i < d2.length),
      (d1.get ⟨i, hi1⟩).old_path = (d2.get ⟨i, hi2⟩).old_path ∧
      (d1.get ⟨i, hi1⟩).new_path = (d2.get ⟨i, hi2⟩).new_path ∧
      (d1.get ⟨i, hi1⟩).new_file = (d2.get ⟨i, hi2⟩).new_file ∧
      (d1.get ⟨i, hi1⟩).deleted_file = (d2.get ⟨i, hi2⟩).deleted_file ∧
      (d1.get ⟨i, hi1⟩).renamed_file = (d2.get ⟨i, hi2⟩).renamed_file ∧
      (d1.get ⟨i, hi1⟩).diff = (d2.get ⟨i, hi2⟩).diff) :
    _build_diff_hash d1 = _build_diff_hash d2 := by
  have heq : d1 = d2 := by
    apply List.ext_get hlen
    intro i hi1 hi2
    obtain ⟨f1, f2, f3, f4, f5, f6⟩ := hfields i hi1 hi2
    exact gitDiffChange_ext _ _ f1 f2 f3 f4 f5 f6
  rw [heq]

theorem c4_witness :
    _build_diff_hash [sampleChange] = _build_diff_hash [sampleChange] :=
  c4_deterministic [sampleChange] [sampleChange] rfl
    (fun _ _ _ => ⟨rfl, rfl, rfl, rfl, rfl, rfl⟩)

/-- C5: `put_cached_review_for_changes` never raises and carries no
success/failure value — it returns only the (possibly unchanged) table —
and under any failing storage behaviour, a failing `json.dumps`
included, it leaves the table exactly as it was: a no-op for the
caller. -/
theorem c5_put_no_op_on_failure (b : StoreBehavior) (db : Db)
    (provider model : String) (changes : List GitDiffChange)
    (r : LLMReviewResult) (h : putFails b = true) :
    (put_cached_review_for_changes b db provider model changes r).db = db := by
  unfold put_cached_review_for_changes
  simp only [putFails, Bool.or_eq_true] at h
  rcases h with ((h | h) | h) | h
  · simp [h]
  · cases hcon : connectionFails b <;> simp [hcon, h]
  · cases hcon : connectionFails b <;> cases hdm : b.dumpsFails <;>
      simp [hcon, hdm, h]
  · cases hcon : connectionFails b <;> cases hdm : b.dumpsFails <;>
      cases hex : b.execFails <;> simp [hcon, hdm, hex, h]

theorem c5_witness :
    (put_cached_review_for_changes dumpsFailBehavior [] "openai" "gpt-4"
      [sampleChange] sampleResult).db = [] :=
  c5_put_no_op_on_failure dumpsFailBehavior [] "openai" "gpt-4"
    [sampleChange] sampleResult rfl

/-- C6: the at-most-one-row-per-key invariant is preserved — by the
upsert statement itself and by every `put` under every storage
behaviour (`get` leaves the table untouched by construction) — and a
second `put` on the same key replaces the payload: after
`put(k, r1); put(k, r2)` a `get(k)` returns `r2`'s serialization and,
whenever `r1 ≠ r2`, not `r1`'s. -/
theorem c6_primary_key_and_overwrite :
    (∀ (db : Db) (k : CacheKey) (p : Payload),
      (dbKeys db).Nodup → (dbKeys (dbUpsert db k p)).Nodup) ∧
    (∀ (b : StoreBehavior) (db : Db) (provider model : String)
      (changes : List GitDiffChange) (r : LLMReviewResult),
      (dbKeys db).Nodup →
      (dbKeys
        (put_cached_review_for_changes b db provider model changes r).db).Nodup) ∧
    (∀ (db : Db) (provider model : String) (changes : List GitDiffChange)
      (r1 r2 : LLMReviewResult),
      (get_cached_review_for_changes cleanBehavior
        (put_cached_review_for_changes cleanBehavior
          (put_cached_review_for_changes cleanBehavior db provider model
            changes r1).db
          provider model changes r2).db
        provider model changes).result = some (reviewToJson r2) ∧
      (r1 ≠ r2 →
        (get_cached_review_for_changes cleanBehavior
          (put_cached_review_for_changes cleanBehavior
            (put_cached_review_for_changes cleanBehavior db provider model
              changes r1).db
            provider model changes r2).db
          provider model changes).result ≠ some (reviewToJson r1))) := by
  refine ⟨dbKeys_upsert_nodup, ?_, ?_⟩
  · intro b db provider model changes r hnd
    unfold put_cached_review_for_changes
    cases hcon : connectionFails b
    · cases hdm : b.dumpsFails
      · cases hex : b.execFails
        · cases hcm : b.commitFails
          · simpa [hcon, hdm, hex, hcm] using dbKeys_upsert_nodup db _ _ hnd
          · simpa [hcon, hdm, hex, hcm] using hnd
        · simpa [hcon, hdm, hex] using hnd
      · simpa [hcon, hdm] using hnd
    · simpa [hcon] using hnd
  · intro db provider model changes r1 r2
    have hres : (get_cached_review_for_changes cleanBehavior
        (put_cached_review_for_changes cleanBehavior
          (put_cached_review_for_changes cleanBehavior db provider model
            changes r1).db
          provider model changes r2).db
        provider model changes).result = some (reviewToJson r2) := by
      unfold put_cached_review_for_changes get_cached_review_for_changes
      simp [cleanBehavior, connectionFails, dbLookup_upsert_self]
    refine ⟨hres, fun hne habs => hne ?_⟩
    rw [hres] at habs
    exact reviewToJson_injective r1 r2 (Option.some.inj habs).symm

theorem c6_witness :
    (dbKeys (dbUpsert [] ("openai", "gpt-4", "k") (some Json.null))).Nodup ∧
    (get_cached_review_for_changes cleanBehavior
      (put_cached_review_for_changes cleanBehavior
        (put_cached_review_for_changes cleanBehavior [] "openai" "gpt-4"
          [sampleChange] sampleResult).db
        "openai" "gpt-4" [sampleChange] otherResult).db
      "openai" "gpt-4" [sampleChange]).result = some (reviewToJson otherResult) :=
  ⟨c6_primary_key_and_overwrite.1 [] ("openai", "gpt-4", "k") (some Json.null)
      (by simp [dbKeys]),
    (c6_primary_key_and_overwrite.2.2 [] "openai" "gpt-4" [sampleChange]
      sampleResult otherResult).1⟩

/-- C7 counterexample: the claim is false as stated.  A stored payload
that is valid JSON but not a serialized review result — here the JSON
number `42` — is not treated as a failure: `json.loads` succeeds and the
code returns the raw value to the caller (its `return data` carries a
`type: ignore`), so the malformed payload is returned rather than
absent. -/
theorem c7_counterexample :
    (get_cached_review_for_changes cleanBehavior wrongShapeDb "openai" "gpt-4"
      [sampleChange]).result = some (Json.num 42) ∧
    reviewFromJson (Json.num 42) = none := by
  constructor
  · unfold get_cached_review_for_changes wrongShapeDb
    simp [cleanBehavior, connectionFails, dbLookup]
  · rfl

/-- C7 (amended): only a payload that is not valid JSON text (one that
`json.loads` rejects) is treated as an I/O failure and mapped to absent;
a payload that parses as JSON is returned to the caller as-is, without
any validation that it is a serialized review result. -/
theorem c7_amended_parse_failure_only (b : StoreBehavior) (db : Db)
    (provider model : String) (changes : List GitDiffChange)
    (h : getFails b = false) :
    (dbLookup db (provider, model, _build_diff_hash changes) = some none →
      (get_cached_review_for_changes b db provider model changes).result =
        none) ∧
    (∀ j : Json,
      dbLookup db (provider, model, _build_diff_hash changes) = some (some j) →
      (get_cached_review_for_changes b db provider model changes).result =
        some j) := by
  simp only [getFails, Bool.or_eq_false_iff] at h
  obtain ⟨hcon, hq⟩ := h
  refine ⟨fun hr => ?_, fun j hr => ?_⟩ <;>
    · unfold get_cached_review_for_changes
      simp [hcon, hq, hr]

theorem c7_amended_witness :
    (get_cached_review_for_changes cleanBehavior corruptDb "openai" "gpt-4"
      [sampleChange]).result = none :=
  (c7_amended_parse_failure_only cleanBehavior corruptDb "openai" "gpt-4"
    [sampleChange] rfl).1
    (dbLookup_single ("openai", "gpt-4", _build_diff_hash [sampleChange]) none)

/-- C8: the claim fails on the code.  On the path where `sqlite3.connect`
succeeds and the schema `CREATE TABLE` inside `_get_connection` then
raises, the opened connection is never closed before the call returns:
the caller's local `conn` was never bound, so the `finally` block's
`conn.close()` raises `NameError` (swallowed by its inner `except`) and
closes nothing.  Both operations leak exactly on that path and close
their connection on every other path. -/
theorem c8_code_bug_connection_leak :
    schemaFailBehavior.makedirsFails = false ∧
    schemaFailBehavior.connectFails = false ∧
    schemaFailBehavior.schemaFails = true ∧
    (get_cached_review_for_changes schemaFailBehavior [] "openai" "gpt-4"
      [sampleChange]).unclosed = 1 ∧
    (put_cached_review_for_changes schemaFailBehavior [] "openai" "gpt-4"
      [sampleChange] sampleResult).unclosed = 1 ∧
    (get_cached_review_for_changes cleanBehavior [] "openai" "gpt-4"
      [sampleChange]).unclosed = 0 ∧
    (put_cached_review_for_changes cleanBehavior [] "openai" "gpt-4"
      [sampleChange] sampleResult).unclosed = 0 := by
  refine ⟨rfl, rfl, rfl, ?_, ?_, ?_, ?_⟩ <;>
    simp [get_cached_review_for_changes, put_cached_review_for_changes,
      connectionLeaks, schemaFailBehavior, cleanBehavior]

/-- C9: a fingerprint is exactly 64 characters, all lowercase hexadecimal
digits (two per byte of the 32-byte SHA-256 digest), and each record's
flags code is exactly 3 characters with fixed positions: `N` or `-` for
`new_file`, then `D` or `-` for `deleted_file`, then `R` or `-` for
`renamed_file`. -/
theorem c9_fingerprint_and_flags_format (changes : List GitDiffChange)
    (c : GitDiffChange) :
    (_build_diff_hash changes).length = 64 ∧
    (_build_diff_hash changes).data.all
      (fun ch => decide (ch ∈ hexDigitChars)) = true ∧
    (flagsChars c).length = 3 ∧
    (flagsChars c).getD 0 ' ' = (if c.new_file then 'N' else '-') ∧
    (flagsChars c).getD 1 ' ' = (if c.deleted_file then 'D' else '-') ∧
    (flagsChars c).getD 2 ' ' = (if c.renamed_file then 'R' else '-') := by
  refine ⟨hexdigest_length _, ?_, rfl, rfl, rfl, rfl⟩
  rw [List.all_eq_true]
  intro ch hch
  exact decide_eq_true (hexdigest_chars _ ch hch)

/-- C10: a `put` touches at most the single row for its own key: under
every storage behaviour, lookups at every other key are unchanged and
the sublist of rows with other keys is exactly preserved — no other row
is created, modified or deleted. -/
theorem c10_put_frame (b : StoreBehavior) (db : Db) (provider model : String)
    (changes : List GitDiffChange) (r : LLMReviewResult) (k' : CacheKey)
    (h : k' ≠ (provider, model, _build_diff_hash changes)) :
    dbLookup (put_cached_review_for_changes b db provider model changes r).db
        k' = dbLookup db k' ∧
    (put_cached_review_for_changes b db provider model changes r).db.filter
        (fun row =>
          ! decide (row.1 = (provider, model, _build_diff_hash changes))) =
      db.filter
        (fun row =>
          ! decide (row.1 = (provider, model, _build_diff_hash changes))) := by
  unfold put_cached_review_for_changes
  cases hcon : connectionFails b
  · cases hdm : b.dumpsFails
    · cases hex : b.execFails
      · cases hcm : b.commitFails
        · simp [hcon, hdm, hex, hcm, dbLookup_upsert_ne _ _ _ _ h,
            dbUpsert_filter_ne]
        · simp [hcon, hdm, hex, hcm]
      · simp [hcon, hdm, hex]
    · simp [hcon, hdm]
  · simp [hcon]

theorem c10_witness :
    dbLookup (put_cached_review_for_changes cleanBehavior [] "openai" "gpt-4"
      [sampleChange] sampleResult).db ("x", "y", "z") =
      dbLookup [] ("x", "y", "z") :=
  (c10_put_frame cleanBehavior [] "openai" "gpt-4" [sampleChange] sampleResult
    ("x", "y", "z")
    (fun he => absurd (congrArg Prod.fst he) (by decide))).1

end ReviewCache
